import Mathlib

/-!
Shallow embedding of the espeakNG-rs wrapper (src/lib.rs, src/error.rs,
src/structs.rs, src/utils.rs).  The native espeakNG engine is outside the
repository; every native call is modelled by an oracle ("environment")
supplying its status codes and outputs, and functions additionally return a
trace of the native operations they perform, so that claims about call order
and about which native calls are (not) made can be stated.
-/

namespace EspeakNg

/-- Typed status codes of the espeakNG C library.
Embeds `ESpeakNgError` from src/error.rs. -/
inductive ESpeakNgError where
  | CompileError
  | VersionMismatch
  | FifoBufferFull
  | NotInitialized
  | AudioError
  | VoiceNotFound
  | MbrolaNotFound
  | MbrolaVoiceNotFound
  | EventBufferFull
  | NotSupported
  | UnsupportedPhonemeFormat
  | NoSpectFrames
  | EmptyPhonemeManifest
  | SpeechStopped
  | UnknownPhonemeFeature
  | UnknownTextEncoding
deriving DecidableEq, Repr

/-- The `#[repr(u32)]` discriminant of each `ESpeakNgError` variant
(src/error.rs lines 60-75). -/
def ESpeakNgError.toRepr : ESpeakNgError → Nat
  | .CompileError => 0x100001FF
  | .VersionMismatch => 0x100002FF
  | .FifoBufferFull => 0x100003FF
  | .NotInitialized => 0x100004FF
  | .AudioError => 0x100005FF
  | .VoiceNotFound => 0x100006FF
  | .MbrolaNotFound => 0x100007FF
  | .MbrolaVoiceNotFound => 0x100008FF
  | .EventBufferFull => 0x100009FF
  | .NotSupported => 0x10000AFF
  | .UnsupportedPhonemeFormat => 0x10000BFF
  | .NoSpectFrames => 0x10000CFF
  | .EmptyPhonemeManifest => 0x10000DFF
  | .SpeechStopped => 0x10000EFF
  | .UnknownPhonemeFeature => 0x10000FFF
  | .UnknownTextEncoding => 0x100010FF

/-- Embeds `ESpeakNgError::from_repr`, as generated by `strum_macros::FromRepr` from
the discriminant table in src/error.rs: the closed lookup of the sixteen
known native status values. -/
def ESpeakNgError.from_repr (n : Nat) : Option ESpeakNgError :=
  if n = 0x100001FF then some .CompileError
  else if n = 0x100002FF then some .VersionMismatch
  else if n = 0x100003FF then some .FifoBufferFull
  else if n = 0x100004FF then some .NotInitialized
  else if n = 0x100005FF then some .AudioError
  else if n = 0x100006FF then some .VoiceNotFound
  else if n = 0x100007FF then some .MbrolaNotFound
  else if n = 0x100008FF then some .MbrolaVoiceNotFound
  else if n = 0x100009FF then some .EventBufferFull
  else if n = 0x10000AFF then some .NotSupported
  else if n = 0x10000BFF then some .UnsupportedPhonemeFormat
  else if n = 0x10000CFF then some .NoSpectFrames
  else if n = 0x10000DFF then some .EmptyPhonemeManifest
  else if n = 0x10000EFF then some .SpeechStopped
  else if n = 0x10000FFF then some .UnknownPhonemeFeature
  else if n = 0x100010FF then some .UnknownTextEncoding
  else none

/-- Embeds `Error` from src/error.rs.  `Other` holds a boxed dynamic error in the
source; here it is modelled by a descriptive tag. -/
inductive Error where
  | ESpeakNg (e : ESpeakNgError)
  | AlreadyInit
  | MbrolaWithoutMbrolaVoice
  | OtherC (eno : Option Int)
  | Other (desc : String)
deriving DecidableEq, Repr

/-- Embeds `handle_error` from src/error.rs lines 100-109.  The source reads the
process-global `errno::errno()`; here that value is passed explicitly. -/
def handle_error (errno : Int) (ret_code : Nat) : Except Error Unit :=
  if ret_code = 0 then .ok ()
  else
    .error (match ESpeakNgError.from_repr ret_code with
      | some err => .ESpeakNg err
      | none => .OtherC (some errno))

/-- Each variant of the closed table is recovered from its own discriminant. -/
theorem from_repr_toRepr (e : ESpeakNgError) :
    ESpeakNgError.from_repr (ESpeakNgError.toRepr e) = some e := by
  cases e <;> rfl

/-- C3: `handle_error(c)` succeeds exactly when `c = 0`; a nonzero code in the
closed table of sixteen known native status values maps to the corresponding
typed `ESpeakNg` error, and a nonzero code outside the table maps to the
unrecognized-failure error `OtherC` carrying the OS error number.  No nonzero
status is mapped to success. -/
theorem handle_error_spec (eno : Int) (c : Nat) :
    (handle_error eno c = .ok () ↔ c = 0) ∧
    (∀ e : ESpeakNgError, ESpeakNgError.from_repr c = some e →
      handle_error eno c = .error (.ESpeakNg e)) ∧
    (c ≠ 0 → ESpeakNgError.from_repr c = none →
      handle_error eno c = .error (.OtherC (some eno))) := by
  refine ⟨?_, ?_, ?_⟩
  · constructor
    · intro h
      by_contra hc
      simp [handle_error, hc] at h
    · intro h
      simp [handle_error, h]
  · intro e he
    have hc : c ≠ 0 := by
      intro h0
      rw [h0] at he
      simp [ESpeakNgError.from_repr] at he
    simp [handle_error, hc, he]
  · intro hc hn
    simp [handle_error, hc, hn]

/-- Concrete instantiation of `handle_error_spec`: the voice-not-found
discriminant maps to the typed error, and an unknown nonzero code maps to
`OtherC` with the errno. -/
theorem handle_error_spec_witness :
    handle_error 7 0x100006FF = .error (.ESpeakNg .VoiceNotFound) ∧
    handle_error 7 5 = .error (.OtherC (some 7)) :=
  ⟨(handle_error_spec 7 0x100006FF).2.1 .VoiceNotFound (by decide),
   (handle_error_spec 7 5).2.2 (by decide) (by decide)⟩

/-! ## Synthesis callback bridge (src/lib.rs lines 90-130) -/

/-- Constant `espeak_EVENT_TYPE_espeakEVENT_LIST_TERMINATED` from the espeakng-sys
bindings (outside src/): the terminator marker is discriminant 0. -/
def espeakEVENT_LIST_TERMINATED : Nat := 0

/-- One native `espeak_EVENT` record as seen by the callback: its type tag and
the dereferenced `user_data` field, which in the source points at an
`Option<&AudioBuffer>`; the optional buffer is carried here by value. -/
structure Event where
  type_ : Nat
  user_data : Option (List Int)
deriving DecidableEq, Repr

/-- The scan loop of `synth_callback`: advance through the event array while
the entry is of the terminator type, yielding the first event whose type
differs from `espeakEVENT_LIST_TERMINATED`.  Running off the end of the
array (no such event) is undefined behaviour in the source; it is modelled
as `none`. -/
def find_non_terminated : List Event → Option Event
  | [] => none
  | e :: es =>
    if e.type_ ≠ espeakEVENT_LIST_TERMINATED then some e else find_non_terminated es

/-- The closure body passed to `catch_unwind` inside `synth_callback`
(src/lib.rs lines 95-123).  `wav = none` models a null sample pointer.  The
result carries the return value together with the (possibly extended)
destination buffer; `Except.error` models a panic or undefined behaviour
inside the closure. -/
def synth_callback_body (wav : Option (List Int)) (sample_count : Nat)
    (events : List Event) : Except String (Int × Option (List Int)) :=
  if wav.isNone ∨ sample_count = 0 then .ok (0, none)
  else
    match find_non_terminated events with
    | none => .error "event scan ran past the end of the event array"
    | some ev =>
      match ev.user_data with
      | some audio_buffer => .ok (0, some (audio_buffer ++ (wav.getD []).take sample_count))
      | none => .ok (0, none)

/-- Outcome of one invocation of the registered callback at the FFI
boundary: either a value is returned to native code, or the process aborts. -/
inductive CallbackResult where
  | ret (v : Int) (buf : Option (List Int))
  | abort (msg : String)
deriving DecidableEq, Repr

/-- Embeds `synth_callback` (src/lib.rs lines 90-130): the closure body runs under
`catch_unwind`; a caught panic is converted into `std::process::abort()`,
a normal completion returns the closure value to native code. -/
def synth_callback (wav : Option (List Int)) (sample_count : Nat)
    (events : List Event) : CallbackResult :=
  match synth_callback_body wav sample_count events with
  | .ok (v, buf) => .ret v buf
  | .error msg => .abort msg

/-- C1: every invocation of the synthesis callback either aborts the process
(a failure caught at the FFI boundary) or returns 0 to native code; no
execution returns a nonzero value, and no unwind escapes (the only outcomes
are `ret` and `abort`). -/
theorem synth_callback_no_unwind (wav : Option (List Int)) (sample_count : Nat)
    (events : List Event) :
    (∃ msg, synth_callback wav sample_count events = .abort msg) ∨
    (∃ buf, synth_callback wav sample_count events = .ret 0 buf) := by
  have hbody : ∀ v buf, synth_callback_body wav sample_count events = .ok (v, buf) → v = 0 := by
    intro v buf h
    unfold synth_callback_body at h
    split at h
    · simp only [Except.ok.injEq, Prod.mk.injEq] at h
      exact h.1.symm
    · cases hf : find_non_terminated events with
      | none => simp [hf] at h
      | some ev =>
        simp only [hf] at h
        cases hu : ev.user_data with
        | none =>
          simp only [hu, Except.ok.injEq, Prod.mk.injEq] at h
          exact h.1.symm
        | some ab =>
          simp only [hu, Except.ok.injEq, Prod.mk.injEq] at h
          exact h.1.symm
  unfold synth_callback
  cases hb : synth_callback_body wav sample_count events with
  | error msg => exact Or.inl ⟨msg, rfl⟩
  | ok p =>
    obtain ⟨v, buf⟩ := p
    have := hbody v buf hb
    subst this
    exact Or.inr ⟨buf, rfl⟩

/-! ## C-string marshalling: the packed languages buffer (src/utils.rs) -/

/-- The `priority as i8` cast in `parse_lang_array`: a raw byte reinterpreted
as a signed 8-bit value. -/
def toI8 (b : Nat) : Int :=
  if b < 128 then (b : Int) else (b : Int) - 256

/-- Embeds `Language` from src/structs.rs.  The source decodes the name bytes as
UTF-8 (`String::from_utf8(..).unwrap()`); the name is kept here as its byte
sequence, which is what the parsing claim is about. -/
structure Language where
  name : List Nat
  priority : Int
deriving DecidableEq, Repr

/-- The `libc::strlen` + `from_raw_parts` step of `parse_lang_array`: split a
byte sequence at its first 0 byte into (name bytes, remainder after the 0).
`none` models a missing terminator, where `strlen` would read out of
bounds. -/
def splitAtZero : List Nat → Option (List Nat × List Nat)
  | [] => none
  | b :: rest =>
    if b = 0 then some ([], rest)
    else (splitAtZero rest).map (fun p => (b :: p.1, p.2))

theorem splitAtZero_length {l n r : List Nat} (h : splitAtZero l = some (n, r)) :
    r.length < l.length := by
  induction l generalizing n r with
  | nil => simp [splitAtZero] at h
  | cons b rest ih =>
    unfold splitAtZero at h
    split at h
    · simp only [Option.some.injEq, Prod.mk.injEq] at h
      simp [← h.2]
    · cases hs : splitAtZero rest with
      | none => rw [hs] at h; simp at h
      | some p =>
        rw [hs] at h
        simp only [Option.map_some', Option.some.injEq, Prod.mk.injEq] at h
        have := ih (n := p.1) (r := p.2) (by rw [hs])
        rw [← h.2]
        simp only [List.length_cons]
        omega

/-- Embeds `parse_lang_array` from src/utils.rs lines 10-41: scan the packed buffer
of repeating (priority byte, null-terminated name) pairs, extracting one pair
per iteration, and stop exactly on a leading 0 byte.  `none` models the
undefined behaviour of reading past the end of the buffer. -/
def parse_lang_array (buf : List Nat) : Option (List Language) :=
  match buf with
  | [] => none
  | b :: rest =>
    if b = 0 then some []
    else
      match hs : splitAtZero rest with
      | none => none
      | some p =>
        have : p.2.length < rest.length := splitAtZero_length hs
        (parse_lang_array p.2).map (fun langs => ⟨p.1, toI8 b⟩ :: langs)
termination_by buf.length
decreasing_by simp only [List.length_cons]; omega

/-- The well-formed native buffer layout the claim quantifies over: repeating
(nonzero priority byte, zero-free name bytes, 0 terminator) groups followed by
the zero sentinel byte. -/
def encode_lang_buffer (pairs : List (Nat × List Nat)) : List Nat :=
  (pairs.map (fun pn => pn.1 :: pn.2 ++ [0])).flatten ++ [0]

theorem splitAtZero_encode {n : List Nat} (hn : 0 ∉ n) (r : List Nat) :
    splitAtZero (n ++ 0 :: r) = some (n, r) := by
  induction n with
  | nil => simp [splitAtZero]
  | cons b rest ih =>
    have hb : b ≠ 0 := fun h => hn (h ▸ List.mem_cons_self ..)
    have hrest : 0 ∉ rest := fun h => hn (List.mem_cons_of_mem _ h)
    simp [splitAtZero, hb, List.append_eq, ih hrest]

/-- C8: on every well-formed packed buffer — (priority byte, null-terminated
name) groups followed by the zero sentinel, with arbitrary trailing bytes —
`parse_lang_array` extracts exactly one (priority, name) pair per group, in
buffer order, stopping exactly at the sentinel: the result holds all and only
the pairs preceding the sentinel. -/
theorem parse_lang_array_spec (pairs : List (Nat × List Nat)) (junk : List Nat)
    (hok : ∀ pn ∈ pairs, pn.1 ≠ 0 ∧ 0 ∉ pn.2) :
    parse_lang_array (encode_lang_buffer pairs ++ junk) =
      some (pairs.map (fun pn => ⟨pn.2, toI8 pn.1⟩)) := by
  induction pairs with
  | nil => simp [encode_lang_buffer, parse_lang_array]
  | cons pn rest ih =>
    obtain ⟨hp, hn⟩ := hok pn (List.mem_cons_self ..)
    have henc : encode_lang_buffer (pn :: rest) ++ junk =
        pn.1 :: (pn.2 ++ 0 :: (encode_lang_buffer rest ++ junk)) := by
      simp [encode_lang_buffer, List.flatten]
    rw [henc]
    unfold parse_lang_array
    simp only [if_neg hp]
    split
    · rename_i heq
      rw [splitAtZero_encode hn (encode_lang_buffer rest ++ junk)] at heq
      exact absurd heq (by simp)
    · rename_i p heq
      rw [splitAtZero_encode hn (encode_lang_buffer rest ++ junk)] at heq
      obtain ⟨h1, h2⟩ := Prod.mk.injEq .. ▸ Option.some.injEq .. ▸ heq.symm
      rw [h2, ih (fun q hq => hok q (List.mem_cons_of_mem _ hq)), h1]
      simp

/-- Concrete instantiation of `parse_lang_array_spec`: two pairs, a sentinel,
and trailing junk bytes; the parser returns exactly the two pairs. -/
theorem parse_lang_array_spec_witness :
    parse_lang_array (encode_lang_buffer [(5, [101, 110]), (131, [100])] ++ [9, 9]) =
      some [⟨[101, 110], 5⟩, ⟨[100], -125⟩] := by
  have h := parse_lang_array_spec [(5, [101, 110]), (131, [100])] [9, 9] (by decide)
  simpa [toI8] using h

/-! ## Synthesis and the sample/byte round trip (src/lib.rs lines 264-311) -/

/-- Embeds `i16::to_le_bytes` on a sample: the 16-bit twos-complement bit pattern,
low byte first.  Samples are modelled as mathematical integers; `% 65536`
fixes the bit pattern. -/
def to_le_bytes (s : Int) : List Nat :=
  [(s % 65536).toNat % 256, (s % 65536).toNat / 256]

/-- Reinterpreting a byte stream as little-endian 16-bit signed samples:
consume two bytes per sample, low byte first, decoding twos complement. -/
def decode_le16 : List Nat → List Int
  | b0 :: b1 :: rest =>
    (if b0 + 256 * b1 < 32768 then ((b0 + 256 * b1 : Nat) : Int)
     else ((b0 + 256 * b1 : Nat) : Int) - 65536) :: decode_le16 rest
  | _ => []

/-- Oracle for one full synthesis lifecycle: status codes of the native
`espeak_ng_Synthesize` / `espeak_ng_Synchronize` calls, the errno value, and
the samples the callback bridge accumulates into the audio buffer for a given
text. -/
structure SynthEnv where
  errno : Int
  synthesize_ret : Nat
  synchronize_ret : Nat
  samples : String → List Int

/-- The status part of `Speaker::_synthesize` (src/lib.rs lines 264-284):
`espeak_ng_Synthesize` through `handle_error`, then on success
`espeak_ng_Synchronize` through `handle_error`. -/
def synth_status (env : SynthEnv) : Except Error Unit := do
  handle_error env.errno env.synthesize_ret
  handle_error env.errno env.synchronize_ret

/-- Embeds `Speaker::synthesize` (src/lib.rs lines 290-294): run `_synthesize` with a
fresh audio buffer and return the accumulated samples. -/
def synthesize (env : SynthEnv) (text : String) : Except Error (List Int) :=
  (synth_status env).map (fun _ => env.samples text)

/-- Embeds `Speaker::synthesize_to_file` (src/lib.rs lines 302-311), returning the
byte stream written to the file: each sample of `synthesize`, serialized as
little-endian 16-bit. -/
def synthesize_to_file (env : SynthEnv) (text : String) : Except Error (List Nat) :=
  (synthesize env text).map (fun audio_data_i16 => (audio_data_i16.map to_le_bytes).flatten)

theorem decode_to_le_bytes (s : Int) (h1 : -32768 ≤ s) (h2 : s < 32768)
    (bs : List Nat) :
    decode_le16 (to_le_bytes s ++ bs) = s :: decode_le16 bs := by
  simp only [to_le_bytes, List.cons_append, List.nil_append, decode_le16]
  congr 1
  omega

/-- C9: the bytes `synthesize_to_file` writes, read back and reinterpreted as
little-endian 16-bit signed samples, are exactly the sample sequence a direct
`synthesize` call returns on the same input: for every environment and text,
if `synthesize` yields samples (all in the 16-bit range, as `i16` guarantees),
`synthesize_to_file` yields a byte stream decoding to those samples. -/
theorem synthesize_to_file_round_trip (env : SynthEnv) (text : String)
    (samples : List Int) (hsyn : synthesize env text = .ok samples)
    (hrange : ∀ s ∈ samples, -32768 ≤ s ∧ s < 32768) :
    ∃ bytes, synthesize_to_file env text = .ok bytes ∧ decode_le16 bytes = samples := by
  refine ⟨(samples.map to_le_bytes).flatten, ?_, ?_⟩
  · simp [synthesize_to_file, hsyn, Except.map]
  · clear hsyn
    induction samples with
    | nil => simp [decode_le16]
    | cons s rest ih =>
      have hs := hrange s (List.mem_cons_self ..)
      have hrest := ih (fun x hx => hrange x (List.mem_cons_of_mem _ hx))
      simp only [List.map_cons, List.flatten_cons]
      rw [decode_to_le_bytes s hs.1 hs.2, hrest]

/-- Concrete instantiation of `synthesize_to_file_round_trip`: a three-sample
synthesis (including a negative sample) round-trips through the byte file. -/
theorem synthesize_to_file_round_trip_witness :
    ∃ bytes,
      synthesize_to_file ⟨0, 0, 0, fun _ => [1, -2, 300]⟩ "hi" = .ok bytes ∧
      decode_le16 bytes = [1, -2, 300] := by
  have h := synthesize_to_file_round_trip ⟨0, 0, 0, fun _ => [1, -2, 300]⟩ "hi"
    [1, -2, 300] rfl (by decide)
  exact h

/-! ## Native-call traces and phoneme extraction (src/lib.rs lines 313-424) -/

/-- Embeds `str::starts_with`, modelled on the character sequence of the string. -/
def starts_with (s pre : String) : Bool :=
  pre.data.isPrefixOf s.data

/-- The native (and libc) operations the wrapper performs, recorded as an
effect trace.  `probeVoiceFile` is the disk-existence check the wrapper itself performs in
`set_voice_raw`; the rest are calls into espeakNG / libc. -/
inductive NativeOp where
  | setSynthCallback
  | initializePath (p : Option String)
  | ngInitialize
  | ngInitializeOutput
  | probeVoiceFile (path : String)
  | setVoiceByName (name : String)
  | textToPhonemes
  | getCurrentVoice
  | memfdCreate
  | fdopen
  | setPhonemeTrace (mode : Nat)
  | ngSynthesize (text : String)
  | ngSynchronize
  | fseek
  | dup
  | fclose
deriving DecidableEq, Repr

/-- Constant `espeakPHONEMES_MBROLA` from the espeakng-sys bindings (outside src/):
the diphone phoneme-trace format flag, 0x10. -/
def espeakPHONEMES_MBROLA : Nat := 16

/-- Embeds `TextMode` from src/structs.rs: only UTF-8 (discriminant 1). -/
inductive TextMode where
  | Utf8
deriving DecidableEq, Repr

/-- Embeds `PhonemeGenOptions` from src/structs.rs.  The caller-owned file
descriptor inside `MbrolaFile` plays no role in the claims; only the
presence of a caller file is modelled. -/
inductive PhonemeGenOptions where
  | Standard (text_mode : TextMode) (phoneme_mode : Nat)
  | Mbrola
  | MbrolaFile
deriving DecidableEq, Repr

/-- Oracle for the phoneme-extraction paths: the synthesis oracle plus the
currently active voice identifier (what `espeak_GetCurrentVoice` reports),
whether `fdopen` succeeds, the bytes read back from the memory-backed file
decoded as UTF-8 (`none` models a `FromUtf8Error`), and the native
`espeak_TextToPhonemes` output after lossy conversion (total: lossy
conversion never fails). -/
structure MbrolaEnv extends SynthEnv where
  current_voice_filename : String
  fdopen_ok : Bool
  mem_content_utf8 : Option String
  textToPhonemes_out : String → TextMode → Nat → String

/-- Embeds `Speaker::_synthesize` (src/lib.rs lines 264-284) with its native-call
trace: `espeak_ng_Synthesize`, then on success `espeak_ng_Synchronize`. -/
def _synthesize (env : SynthEnv) (text : String) : Except Error Unit × List NativeOp :=
  match handle_error env.errno env.synthesize_ret with
  | .error e => (.error e, [.ngSynthesize text])
  | .ok _ => (handle_error env.errno env.synchronize_ret, [.ngSynthesize text, .ngSynchronize])

/-- Embeds `Speaker::text_to_phonemes_standard` (src/lib.rs lines 344-361): one
native `espeak_TextToPhonemes` call, output converted lossily to an owned
string.  No failure path exists. -/
def text_to_phonemes_standard (env : MbrolaEnv) (text : String) (text_mode : TextMode)
    (phoneme_mode : Nat) : String × List NativeOp :=
  (env.textToPhonemes_out text text_mode phoneme_mode, [.textToPhonemes])

/-- Embeds `Speaker::text_to_phonemes_mbrola` (src/lib.rs lines 363-424).
`has_file` records whether a caller file was passed (`MbrolaFile`).  The
`read_to_end` of the memory-backed file is assumed not to fail (it reads an
in-memory descriptor); UTF-8 decoding of its content may fail and surfaces as
`Error::Other`. -/
def text_to_phonemes_mbrola (env : MbrolaEnv) (text : String) (has_file : Bool) :
    Except Error (Option String) × List NativeOp :=
  if ¬ starts_with env.current_voice_filename "mb/" then
    (.error .MbrolaWithoutMbrolaVoice, [.getCurrentVoice])
  else
    let fd_ops : List NativeOp := if has_file then [] else [.memfdCreate]
    if ¬ env.fdopen_ok then
      (.error (.OtherC (some env.errno)), .getCurrentVoice :: fd_ops ++ [.fdopen])
    else
      let (result, synth_ops) := _synthesize env.toSynthEnv text
      let pre : List NativeOp :=
        .getCurrentVoice :: fd_ops ++ [.fdopen, .setPhonemeTrace espeakPHONEMES_MBROLA] ++
          synth_ops ++ [.setPhonemeTrace 0]
      if ¬ has_file then
        let post : List NativeOp := [.fseek, .dup, .fclose]
        match result with
        | .error e => (.error e, pre ++ post)
        | .ok _ =>
          match env.mem_content_utf8 with
          | none => (.error (.Other "FromUtf8Error"), pre ++ post)
          | some s => (.ok (some s), pre ++ post)
      else
        match result with
        | .error e => (.error e, pre ++ [.fclose])
        | .ok _ => (.ok none, pre ++ [.fclose])

/-- Embeds `Speaker::text_to_phonemes` (src/lib.rs lines 319-342): dispatch on the
options variant; the two mbrola-style variants share `text_to_phonemes_mbrola`,
with the caller file present exactly for `MbrolaFile`. -/
def text_to_phonemes (env : MbrolaEnv) (text : String) (option : PhonemeGenOptions) :
    Except Error (Option String) × List NativeOp :=
  match option with
  | .Standard text_mode phoneme_mode =>
    let (s, ops) := text_to_phonemes_standard env text text_mode phoneme_mode
    (.ok (some s), ops)
  | .Mbrola => text_to_phonemes_mbrola env text false
  | .MbrolaFile => text_to_phonemes_mbrola env text true

/-- C4: for every text and either mbrola-style option, if the identifier of
the active voice does not start with "mb/", `text_to_phonemes` fails immediately
with the no-diphone-voice error, and the trace holds only the current-voice
read — none of the synthesis-machinery native calls is made. -/
theorem text_to_phonemes_mbrola_requires_mbrola_voice (env : MbrolaEnv) (text : String)
    (option : PhonemeGenOptions) (hopt : option = .Mbrola ∨ option = .MbrolaFile)
    (hv : starts_with env.current_voice_filename "mb/" = false) :
    text_to_phonemes env text option =
      (.error .MbrolaWithoutMbrolaVoice, [.getCurrentVoice]) := by
  rcases hopt with h | h <;>
    subst h <;>
    simp [text_to_phonemes, text_to_phonemes_mbrola, hv]

/-- Concrete instantiation of `text_to_phonemes_mbrola_requires_mbrola_voice`
at the default voice "gmw/en", which is not diphone-family. -/
theorem text_to_phonemes_mbrola_requires_mbrola_voice_witness :
    text_to_phonemes
      ⟨⟨0, 0, 0, fun _ => []⟩, "gmw/en", true, some "", fun _ _ _ => ""⟩
      "Hello" .Mbrola =
      (.error .MbrolaWithoutMbrolaVoice, [.getCurrentVoice]) :=
  text_to_phonemes_mbrola_requires_mbrola_voice
    ⟨⟨0, 0, 0, fun _ => []⟩, "gmw/en", true, some "", fun _ _ _ => ""⟩
    "Hello" .Mbrola (Or.inl rfl) (by decide)

/-- C5: in diphone-mode phoneme extraction (voice has the "mb/" prefix, the
native file abstraction was obtained), on every path — synthesis succeeding
or failing, caller file or memory-backed file — the operations after the
synthesis call include the phoneme-trace reset to its default target
(`setPhonemeTrace 0`) and the close of the native file abstraction, with the
descriptor duplication (`dup`) in the to-memory sub-mode; and any synthesis
error is propagated to the caller as the result (after that cleanup, which is
in the trace unconditionally). -/
theorem text_to_phonemes_mbrola_cleanup (env : MbrolaEnv) (text : String) (has_file : Bool)
    (hv : starts_with env.current_voice_filename "mb/" = true)
    (hfd : env.fdopen_ok = true) :
    ∃ cleanup_ops,
      (text_to_phonemes_mbrola env text has_file).2 =
        NativeOp.getCurrentVoice :: (if has_file then [] else [NativeOp.memfdCreate]) ++
          [NativeOp.fdopen, NativeOp.setPhonemeTrace espeakPHONEMES_MBROLA,
            NativeOp.ngSynthesize text] ++ cleanup_ops ∧
      NativeOp.setPhonemeTrace 0 ∈ cleanup_ops ∧
      NativeOp.fclose ∈ cleanup_ops ∧
      (has_file = false → NativeOp.dup ∈ cleanup_ops) ∧
      ∀ e, (_synthesize env.toSynthEnv text).1 = .error e →
        (text_to_phonemes_mbrola env text has_file).1 = .error e := by
  cases h1 : handle_error env.errno env.synthesize_ret with
  | error e =>
    have hprop : ∀ e', (_synthesize env.toSynthEnv text).1 = .error e' → e = e' := by
      intro e' he'
      simpa [_synthesize, h1] using he'
    cases has_file with
    | false =>
      refine ⟨[.setPhonemeTrace 0, .fseek, .dup, .fclose], ?_, by simp, by simp,
        fun _ => by simp, ?_⟩
      · simp [text_to_phonemes_mbrola, hv, hfd, _synthesize, h1]
      · intro e' he'
        rw [← hprop e' he']
        simp [text_to_phonemes_mbrola, hv, hfd, _synthesize, h1]
    | true =>
      refine ⟨[.setPhonemeTrace 0, .fclose], ?_, by simp, by simp,
        fun h => by exact absurd h (by simp), ?_⟩
      · simp [text_to_phonemes_mbrola, hv, hfd, _synthesize, h1]
      · intro e' he'
        rw [← hprop e' he']
        simp [text_to_phonemes_mbrola, hv, hfd, _synthesize, h1]
  | ok u =>
    cases h2 : handle_error env.errno env.synchronize_ret with
    | error e =>
      have hprop : ∀ e', (_synthesize env.toSynthEnv text).1 = .error e' → e = e' := by
        intro e' he'
        simpa [_synthesize, h1, h2] using he'
      cases has_file with
      | false =>
        refine ⟨[.ngSynchronize, .setPhonemeTrace 0, .fseek, .dup, .fclose], ?_, by simp,
          by simp, fun _ => by simp, ?_⟩
        · simp [text_to_phonemes_mbrola, hv, hfd, _synthesize, h1, h2]
        · intro e' he'
          rw [← hprop e' he']
          simp [text_to_phonemes_mbrola, hv, hfd, _synthesize, h1, h2]
      | true =>
        refine ⟨[.ngSynchronize, .setPhonemeTrace 0, .fclose], ?_, by simp, by simp,
          fun h => by exact absurd h (by simp), ?_⟩
        · simp [text_to_phonemes_mbrola, hv, hfd, _synthesize, h1, h2]
        · intro e' he'
          rw [← hprop e' he']
          simp [text_to_phonemes_mbrola, hv, hfd, _synthesize, h1, h2]
    | ok u2 =>
      have hprop : ∀ e', (_synthesize env.toSynthEnv text).1 = .error e' → False := by
        intro e' he'
        simp [_synthesize, h1, h2] at he'
      cases has_file with
      | false =>
        refine ⟨[.ngSynchronize, .setPhonemeTrace 0, .fseek, .dup, .fclose], ?_, by simp,
          by simp, fun _ => by simp, fun e' he' => absurd he' (fun h => hprop e' h)⟩
        cases hm : env.mem_content_utf8 with
        | none => simp [text_to_phonemes_mbrola, hv, hfd, _synthesize, h1, h2, hm]
        | some s => simp [text_to_phonemes_mbrola, hv, hfd, _synthesize, h1, h2, hm]
      | true =>
        refine ⟨[.ngSynchronize, .setPhonemeTrace 0, .fclose], ?_, by simp, by simp,
          fun h => by exact absurd h (by simp), fun e' he' => absurd he' (fun h => hprop e' h)⟩
        simp [text_to_phonemes_mbrola, hv, hfd, _synthesize, h1, h2]

/-- Concrete instantiation of `text_to_phonemes_mbrola_cleanup`: a diphone
voice, to-memory sub-mode, with the native synthesis call failing with the
audio error; the trace still resets the phoneme trace, duplicates the
descriptor and closes the native file. -/
theorem text_to_phonemes_mbrola_cleanup_witness :
    ∃ cleanup_ops,
      (text_to_phonemes_mbrola
          ⟨⟨3, 0x100005FF, 0, fun _ => []⟩, "mb/us1", true, some "ph", fun _ _ _ => ""⟩
          "Hello" false).2 =
        NativeOp.getCurrentVoice :: (if false then [] else [NativeOp.memfdCreate]) ++
          [NativeOp.fdopen, NativeOp.setPhonemeTrace espeakPHONEMES_MBROLA,
            NativeOp.ngSynthesize "Hello"] ++ cleanup_ops ∧
      NativeOp.setPhonemeTrace 0 ∈ cleanup_ops ∧
      NativeOp.fclose ∈ cleanup_ops ∧
      (false = false → NativeOp.dup ∈ cleanup_ops) ∧
      ∀ e, (_synthesize ⟨3, 0x100005FF, 0, fun _ => []⟩ "Hello").1 = .error e →
        (text_to_phonemes_mbrola
            ⟨⟨3, 0x100005FF, 0, fun _ => []⟩, "mb/us1", true, some "ph", fun _ _ _ => ""⟩
            "Hello" false).1 = .error e :=
  text_to_phonemes_mbrola_cleanup
    ⟨⟨3, 0x100005FF, 0, fun _ => []⟩, "mb/us1", true, some "ph", fun _ _ _ => ""⟩
    "Hello" false (by decide) rfl

theorem mem_mode_never_ok_none (env : MbrolaEnv) (text : String) :
    (text_to_phonemes_mbrola env text false).1 ≠ .ok none := by
  by_cases hsw : starts_with env.current_voice_filename "mb/" = true
  · by_cases hfd : env.fdopen_ok = true
    · cases h1 : handle_error env.errno env.synthesize_ret with
      | error e => simp [text_to_phonemes_mbrola, hsw, hfd, _synthesize, h1]
      | ok u =>
        cases h2 : handle_error env.errno env.synchronize_ret with
        | error e => simp [text_to_phonemes_mbrola, hsw, hfd, _synthesize, h1, h2]
        | ok u2 =>
          cases hm : env.mem_content_utf8 with
          | none => simp [text_to_phonemes_mbrola, hsw, hfd, _synthesize, h1, h2, hm]
          | some s => simp [text_to_phonemes_mbrola, hsw, hfd, _synthesize, h1, h2, hm]
    · simp [text_to_phonemes_mbrola, hsw, hfd]
  · simp [text_to_phonemes_mbrola, hsw]

/-- C10: for every environment and text, the `Standard` options variant always
yields `Ok(Some(string))` — the standard path has no error or `None` outcome —
and a result of `Ok(None)` occurs only for the `MbrolaFile` variant. -/
theorem text_to_phonemes_result_shape (env : MbrolaEnv) (text : String) :
    (∀ text_mode phoneme_mode, ∃ s,
      (text_to_phonemes env text (.Standard text_mode phoneme_mode)).1 = .ok (some s)) ∧
    (∀ option : PhonemeGenOptions,
      (text_to_phonemes env text option).1 = .ok none → option = .MbrolaFile) := by
  constructor
  · intro text_mode phoneme_mode
    exact ⟨env.textToPhonemes_out text text_mode phoneme_mode, rfl⟩
  · intro option h
    cases option with
    | Standard text_mode phoneme_mode => simp [text_to_phonemes, text_to_phonemes_standard] at h
    | MbrolaFile => rfl
    | Mbrola => exact absurd h (mem_mode_never_ok_none env text)

/-- Concrete instantiation of `text_to_phonemes_result_shape`: the standard
variant yields `Ok(Some _)`, and the successful to-caller-file run that yields
`Ok(None)` is the `MbrolaFile` variant. -/
theorem text_to_phonemes_result_shape_witness :
    (∃ s,
      (text_to_phonemes ⟨⟨0, 0, 0, fun _ => []⟩, "mb/us1", true, some "", fun _ _ _ => "ph"⟩
        "hi" (.Standard .Utf8 0)).1 = .ok (some s)) ∧
    PhonemeGenOptions.MbrolaFile = .MbrolaFile :=
  ⟨(text_to_phonemes_result_shape
      ⟨⟨0, 0, 0, fun _ => []⟩, "mb/us1", true, some "", fun _ _ _ => "ph"⟩ "hi").1 .Utf8 0,
   (text_to_phonemes_result_shape
      ⟨⟨0, 0, 0, fun _ => []⟩, "mb/us1", true, some "", fun _ _ _ => "ph"⟩ "hi").2
     .MbrolaFile (by rfl)⟩

/-! ## Voice selection (src/lib.rs lines 195-226) -/

/-- Oracle for `set_voice_raw`: the errno value, the status code returned by
the i-th `espeak_ng_SetVoiceByName` attempt, the voice search path reported
by `Speaker::info()`, and the disk (`Path::exists`). -/
structure VoiceEnv where
  errno : Int
  setVoice_resp : Nat → Nat
  voice_path : String
  fs_exists : String → Bool

/-- The mbrola retry loop of `set_voice_raw` (src/lib.rs lines 208-220),
iterated with explicit fuel: each iteration calls `espeak_ng_SetVoiceByName`;
success exits with `Ok`, a voice-not-found status retries (`continue`), any
other error is returned.  `none` means the given fuel was exhausted with the
loop still spinning. -/
def set_voice_retry_loop (env : VoiceEnv) (name : String) :
    Nat → Nat → Option (Except Error Unit) × List NativeOp
  | _, 0 => (none, [])
  | i, fuel + 1 =>
    match handle_error env.errno (env.setVoice_resp i) with
    | .ok _ => (some (.ok ()), [.setVoiceByName name])
    | .error err =>
      if err = .ESpeakNg .VoiceNotFound then
        let r := set_voice_retry_loop env name (i + 1) fuel
        (r.1, .setVoiceByName name :: r.2)
      else (some (.error err), [.setVoiceByName name])

/-- Embeds `Speaker::set_voice_raw` (src/lib.rs lines 195-226).  The `PathBuf`
join `voice_path.push("voices/{filename}")` is modelled as string
concatenation with "/".  The fuel bounds only how far the model unrolls the
`while` loop of the source; `none` means the loop was still spinning. -/
def set_voice_raw (env : VoiceEnv) (filename : String) (fuel : Nat) :
    Option (Except Error Unit) × List NativeOp :=
  let mbrola_voice := starts_with filename "mb/"
  if mbrola_voice then
    let probe_path := env.voice_path ++ "/voices/" ++ filename
    if ¬ env.fs_exists probe_path then
      (some (.error (.ESpeakNg .VoiceNotFound)), [.probeVoiceFile probe_path])
    else
      let r := set_voice_retry_loop env filename 0 fuel
      (r.1, .probeVoiceFile probe_path :: r.2)
  else
    (some (handle_error env.errno (env.setVoice_resp 0)), [.setVoiceByName filename])

/-- C7: a filename with the "mb/" prefix is first probed on disk under the
configured voice path; if the file does not exist, `set_voice_raw` returns
the voice-not-found error and the trace holds only the probe — no native
set-voice-by-name call.  A filename without the prefix goes straight to one
native set-voice-by-name call, with no disk probe in the trace. -/
theorem set_voice_raw_probe_spec (env : VoiceEnv) (filename : String) (fuel : Nat) :
    (starts_with filename "mb/" = true →
      env.fs_exists (env.voice_path ++ "/voices/" ++ filename) = false →
      set_voice_raw env filename fuel =
        (some (.error (.ESpeakNg .VoiceNotFound)),
          [.probeVoiceFile (env.voice_path ++ "/voices/" ++ filename)])) ∧
    (starts_with filename "mb/" = false →
      set_voice_raw env filename fuel =
        (some (handle_error env.errno (env.setVoice_resp 0)),
          [.setVoiceByName filename])) := by
  constructor
  · intro hm hne
    simp [set_voice_raw, hm, hne]
  · intro hm
    simp [set_voice_raw, hm]

/-- Concrete instantiation of `set_voice_raw_probe_spec`: the missing mbrola
voice file is rejected by the probe alone, and a non-mbrola filename skips
the probe. -/
theorem set_voice_raw_probe_spec_witness :
    set_voice_raw ⟨0, fun _ => 0, "/usr/share", fun _ => false⟩ "mb/us1" 5 =
      (some (.error (.ESpeakNg .VoiceNotFound)),
        [.probeVoiceFile "/usr/share/voices/mb/us1"]) ∧
    set_voice_raw ⟨0, fun _ => 0, "/usr/share", fun _ => false⟩ "gmw/en" 5 =
      (some (.ok ()), [.setVoiceByName "gmw/en"]) := by
  constructor
  · exact (set_voice_raw_probe_spec ⟨0, fun _ => 0, "/usr/share", fun _ => false⟩
      "mb/us1" 5).1 (by decide) rfl
  · have h := (set_voice_raw_probe_spec ⟨0, fun _ => 0, "/usr/share", fun _ => false⟩
      "gmw/en" 5).2 (by decide)
    simpa [handle_error] using h

/-- Termination of the `set_voice_raw` call: some finite unrolling of its
retry loop settles the result. -/
def set_voice_raw_terminates (env : VoiceEnv) (filename : String) : Prop :=
  ∃ fuel, (set_voice_raw env filename fuel).1.isSome

theorem ite_ne_of {α : Type} (p : Prop) [Decidable p] {a b v : α}
    (ha : a ≠ v) (hb : b ≠ v) : (if p then a else b) ≠ v := by
  split
  · exact ha
  · exact hb

theorem from_repr_some_vnf (c : Nat)
    (h : ESpeakNgError.from_repr c = some .VoiceNotFound) : c = 0x100006FF := by
  by_cases hc : c = 0x100006FF
  · exact hc
  · exfalso
    apply absurd h
    unfold ESpeakNgError.from_repr
    rw [if_neg hc]
    repeat' first
      | apply ite_ne_of
      | decide

theorem handle_error_error_vnf (eno : Int) (c : Nat)
    (h : handle_error eno c = .error (.ESpeakNg .VoiceNotFound)) : c = 0x100006FF := by
  unfold handle_error at h
  split at h
  · exact absurd h (by simp)
  · cases hr : ESpeakNgError.from_repr c with
    | none => rw [hr] at h; exact absurd h (by simp)
    | some e =>
      rw [hr] at h
      injection h with h1
      injection h1 with h2
      subst h2
      exact from_repr_some_vnf c hr

theorem handle_error_vnf_of_code (eno : Int) :
    handle_error eno 0x100006FF = .error (.ESpeakNg .VoiceNotFound) := by
  simp [handle_error, ESpeakNgError.from_repr]

theorem set_voice_retry_loop_succ (env : VoiceEnv) (name : String) (i fuel : Nat) :
    set_voice_retry_loop env name i (fuel + 1) =
      match handle_error env.errno (env.setVoice_resp i) with
      | .ok _ => (some (.ok ()), [.setVoiceByName name])
      | .error err =>
        if err = .ESpeakNg .VoiceNotFound then
          ((set_voice_retry_loop env name (i + 1) fuel).1,
            .setVoiceByName name :: (set_voice_retry_loop env name (i + 1) fuel).2)
        else (some (.error err), [.setVoiceByName name]) := rfl

theorem retry_loop_none_of_all_vnf (env : VoiceEnv) (name : String)
    (hall : ∀ i, env.setVoice_resp i = 0x100006FF) :
    ∀ fuel i, (set_voice_retry_loop env name i fuel).1 = none := by
  intro fuel
  induction fuel with
  | zero => intro i; rfl
  | succ n ih =>
    intro i
    have h : handle_error env.errno (env.setVoice_resp i) =
        .error (.ESpeakNg .VoiceNotFound) := by
      rw [hall i]
      exact handle_error_vnf_of_code env.errno
    rw [set_voice_retry_loop_succ, h]
    simpa using ih (i + 1)

/-- C6 counterexample: for the mbrola filename "mb/us1" whose voice file does
exist on disk, against the native response sequence answering voice-not-found
on every attempt, `set_voice_raw` never terminates — no finite number of
retries settles it, and no exhaustion error is surfaced.  The retry loop is
unbounded. -/
theorem set_voice_raw_fst_mbrola (env : VoiceEnv) (filename : String) (fuel : Nat)
    (hm : starts_with filename "mb/" = true)
    (hex : env.fs_exists (env.voice_path ++ "/voices/" ++ filename) = true) :
    (set_voice_raw env filename fuel).1 = (set_voice_retry_loop env filename 0 fuel).1 := by
  simp [set_voice_raw, hm, hex]

theorem set_voice_raw_spins_on_constant_vnf :
    ¬ set_voice_raw_terminates
        ⟨0, fun _ => 0x100006FF, "/usr/share", fun _ => true⟩ "mb/us1" := by
  rintro ⟨fuel, hfuel⟩
  rw [set_voice_raw_fst_mbrola _ _ _ (by decide) rfl] at hfuel
  rw [retry_loop_none_of_all_vnf _ _ (fun _ => rfl) fuel 0] at hfuel
  simp at hfuel

theorem retry_loop_some_of_resp (env : VoiceEnv) (name : String) :
    ∀ k i, env.setVoice_resp (i + k) ≠ 0x100006FF →
      ((set_voice_retry_loop env name i (k + 1)).1).isSome := by
  intro k
  induction k with
  | zero =>
    intro i h
    rw [Nat.add_zero] at h
    rw [set_voice_retry_loop_succ]
    cases hh : handle_error env.errno (env.setVoice_resp i) with
    | ok u => simp
    | error err =>
      have hne : err ≠ .ESpeakNg .VoiceNotFound := by
        intro he
        exact h (handle_error_error_vnf _ _ (he ▸ hh))
      simp [hne]
  | succ k ih =>
    intro i h
    rw [set_voice_retry_loop_succ]
    cases hh : handle_error env.errno (env.setVoice_resp i) with
    | ok u => simp
    | error err =>
      by_cases he : err = .ESpeakNg .VoiceNotFound
      · have hnext : env.setVoice_resp ((i + 1) + k) ≠ 0x100006FF := by
          have harith : (i + 1) + k = i + (k + 1) := by omega
          rw [harith]
          exact h
        have hs := ih (i + 1) hnext
        simp [he, hs]
      · simp [he]

/-- C6 amended: for an mbrola-family filename whose voice file exists on
disk, the retry loop of `set_voice_raw` is unbounded — the call terminates
exactly when some native set-voice-by-name response differs from the
voice-not-found status; against the all-voice-not-found response sequence it
spins indefinitely, and no retry-exhaustion error exists. -/
theorem set_voice_raw_terminates_iff (env : VoiceEnv) (filename : String)
    (hm : starts_with filename "mb/" = true)
    (hex : env.fs_exists (env.voice_path ++ "/voices/" ++ filename) = true) :
    set_voice_raw_terminates env filename ↔ ∃ i, env.setVoice_resp i ≠ 0x100006FF := by
  have hraw : ∀ fuel, (set_voice_raw env filename fuel).1 =
      (set_voice_retry_loop env filename 0 fuel).1 := by
    intro fuel
    simp [set_voice_raw, hm, hex]
  constructor
  · intro ⟨fuel, hfuel⟩
    by_contra hno
    push_neg at hno
    have := retry_loop_none_of_all_vnf env filename hno fuel 0
    rw [hraw fuel, this] at hfuel
    simp at hfuel
  · rintro ⟨i, hi⟩
    refine ⟨i + 1, ?_⟩
    rw [hraw]
    exact retry_loop_some_of_resp env filename i 0 (by simpa using hi)

/-- Concrete instantiation of `set_voice_raw_terminates_iff`: when the second
native attempt succeeds, `set_voice_raw` on an existing mbrola voice
terminates. -/
theorem set_voice_raw_terminates_iff_witness :
    set_voice_raw_terminates
      ⟨0, fun i => if i = 0 then 0x100006FF else 0, "/usr/share", fun _ => true⟩ "mb/us1" :=
  (set_voice_raw_terminates_iff
      ⟨0, fun i => if i = 0 then 0x100006FF else 0, "/usr/share", fun _ => true⟩ "mb/us1"
      (by decide) rfl).2 ⟨1, by decide⟩

/-! ## Initialisation and the process-wide singleton (src/lib.rs lines 67-149) -/

/-- Embeds `Speaker` from src/lib.rs: a zero-sized marker handle (`PhantomData`);
its identity is the process-wide static cell that stores it. -/
inductive Speaker where
  | mk
deriving DecidableEq, Repr

/-- Embeds `Speaker::DEFAULT_VOICE`. -/
def DEFAULT_VOICE : String := "gmw/en"

/-- Oracle for `Speaker::initialise`: the voice-selection oracle plus the
status codes of `espeak_ng_Initialize` and `espeak_ng_InitializeOutput`. -/
structure InitEnv extends VoiceEnv where
  initialize_ret : Nat
  initializeOutput_ret : Nat

/-- Embeds `Speaker::initialise` (src/lib.rs lines 89-149): register the synthesis
callback, initialize the native search path with the given voice path,
initialize the engine core and its output subsystem (each checked through
`handle_error`), then set the default voice via `set_voice_raw`. -/
def Speaker.initialise (env : InitEnv) (voice_path : Option String) (fuel : Nat) :
    Option (Except Error Speaker) × List NativeOp :=
  let pre : List NativeOp := [.setSynthCallback, .initializePath voice_path, .ngInitialize]
  match handle_error env.errno env.initialize_ret with
  | .error e => (some (.error e), pre)
  | .ok _ =>
    match handle_error env.errno env.initializeOutput_ret with
    | .error e => (some (.error e), pre ++ [.ngInitializeOutput])
    | .ok _ =>
      let r := set_voice_raw env.toVoiceEnv DEFAULT_VOICE fuel
      (r.1.map (fun res => res.map (fun _ => Speaker.mk)),
        pre ++ [.ngInitializeOutput] ++ r.2)

/-- Embeds `espeakng::get` (src/lib.rs lines 78-80): read the cell, never
initializing as a side effect (it is a pure read of the cell state). -/
def get (cell : Option Speaker) : Option Speaker :=
  cell

/-- Embeds `espeakng::initialise` (src/lib.rs lines 73-75):
`SPEAKER.get_or_try_init(...)`.  The state of the `OnceCell` is the optional
stored `Speaker`.  A filled cell is returned as-is without running the
initializer; an empty cell runs `Speaker::initialise` and publishes the value
only on success.  Result: (returned value, new cell state, native-call
trace). -/
def initialise (env : InitEnv) (voice_path : Option String) (fuel : Nat)
    (cell : Option Speaker) :
    Option (Except Error Speaker) × Option Speaker × List NativeOp :=
  match cell with
  | some s => (some (.ok s), some s, [])
  | none =>
    match Speaker.initialise env voice_path fuel with
    | (some (.ok s), ops) => (some (.ok s), some s, ops)
    | (some (.error e), ops) => (some (.error e), none, ops)
    | (none, ops) => (none, none, ops)

/-- C2: first-call-wins idempotence.  If `initialise(A)` succeeds with handle
`h1`, then a later `initialise(B)` — for any path `B` and any native
environment — returns the very same stored handle, leaves the cell unchanged
and performs no native call (`B` has no effect), and `get` returns that
handle on both occasions without initializing. -/
theorem initialise_idempotent (env env2 : InitEnv) (fuel fuel2 : Nat)
    (A B : Option String) (h1 : Speaker) (cell1 : Option Speaker) (ops : List NativeOp)
    (hfirst : initialise env A fuel none = (some (.ok h1), cell1, ops)) :
    cell1 = some h1 ∧
    initialise env2 B fuel2 cell1 = (some (.ok h1), cell1, []) ∧
    get cell1 = some h1 := by
  unfold initialise at hfirst
  rcases h : Speaker.initialise env A fuel with ⟨r, ops2⟩
  rw [h] at hfirst
  cases r with
  | none => simp at hfirst
  | some res =>
    cases res with
    | error e => simp at hfirst
    | ok s =>
      simp only [Prod.mk.injEq, Option.some.injEq, Except.ok.injEq] at hfirst
      obtain ⟨-, hc, -⟩ := hfirst
      cases h1
      cases s
      subst hc
      exact ⟨rfl, rfl, rfl⟩

/-- Concrete instantiation of `initialise_idempotent`: a successful first
call with path "vp"; the second call with no path, a different errno, and a
native environment that would now fail still returns the same handle with no
native calls. -/
theorem initialise_idempotent_witness :
    (some Speaker.mk : Option Speaker) = some Speaker.mk ∧
    initialise ⟨⟨9, fun _ => 0x100006FF, "/vp", fun _ => false⟩, 7, 7⟩ none 3
        (some Speaker.mk) =
      (some (.ok Speaker.mk), some Speaker.mk, []) ∧
    get (some Speaker.mk) = some Speaker.mk :=
  initialise_idempotent ⟨⟨0, fun _ => 0, "/vp", fun _ => true⟩, 0, 0⟩
    ⟨⟨9, fun _ => 0x100006FF, "/vp", fun _ => false⟩, 7, 7⟩ 1 3 (some "vp") none
    Speaker.mk (some Speaker.mk)
    [.setSynthCallback, .initializePath (some "vp"), .ngInitialize, .ngInitializeOutput,
      .setVoiceByName "gmw/en"]
    (by rfl)

end EspeakNg
